import Mathlib

/-!
Shallow embedding of the rate-control core of the repository: the
`useThrottle` hook (src/unnamed/part_002) and the `useDebounce` hook
(second document of src/src/hooks/useClickOutside.ts).  Each of the four
operating modes (throttle/debounce x action/value) is embedded as a small
state machine whose fields mirror the React refs of the source, and whose
step function mirrors the hook's effect/callback bodies line by line.

Time is modelled by integer milliseconds (`Date.now()` results).  Host
timers (`setTimeout`) are modelled by an optional slot holding a fresh
handle id together with the absolute due time `now + armedDelay`; a
`clearTimeout` followed by `setTimeout` is modelled by overwriting the
slot with a fresh id.  A timer callback running at time `u` is an explicit
`fire u` event; it is a no-op when no timer is armed (a cancelled timer
never runs).  The host may run a due callback late, and an external call
event carrying the same timestamp as a due timer may be processed before
the timer's callback, so traces do not force a timer to run the moment it
falls due.
-/

/-- Models the dynamic `typeof valueOrFn === 'function'` checks of the
source: a wrapped value is either a callable (identified by an id, so that
replacing the callable is observable) or not a function. -/
inductive FnVal where
  | func (id : Nat)
  | nonfunc
deriving DecidableEq

namespace ThrottleFn

/-- State of `useThrottle` in action mode (src/unnamed/part_002, lines
45-162), restricted to the refs the `throttledFn` path touches:
`latestArgsRef`, `fnRef`, `isFirstRunRef`, `fnLastRanRef` (initial value
`-Infinity` modelled as `none`), `timeoutRef` (handle id and absolute due
time), plus the `delay` captured by the current `useCallback` closure, the
identity of the proxy produced by `useCallback(..., [delay])` (`proxyId`),
counters supplying fresh ids, and a log of performed invocations
`(callable id, args, time)`. -/
structure State (α : Type) where
  latestArgs : α
  fnRef : FnVal
  isFirstRun : Bool
  fnLastRan : Option Int
  timeout : Option (Nat × Int)
  nextId : Nat
  delay : Int
  proxyId : Nat
  nextProxyId : Nat
  log : List (Nat × α × Int)
deriving DecidableEq

/-- Mount: `useRef` initialisers of the source (lines 53-62).
`latestArgsRef` starts as `[]` in the source; the model takes an explicit
initial payload `a0`. -/
def init (a0 : α) (fn : FnVal) (d : Int) : State α :=
  { latestArgs := a0, fnRef := fn, isFirstRun := true, fnLastRan := none
    timeout := none, nextId := 0, delay := d
    proxyId := 0, nextProxyId := 1, log := [] }

/-- The leading-edge branch of `throttledFn` (lines 131-137): mark the
first run done, stamp `fnLastRanRef = now`, and invoke `fnRef.current`
with `latestArgsRef.current` if it is a function.  Note: this branch does
not touch `timeoutRef`. -/
def fireNow (s : State α) (t : Int) : State α :=
  { s with isFirstRun := false, fnLastRan := some t
           log := s.log ++ (match s.fnRef with
                            | FnVal.func j => [(j, s.latestArgs, t)]
                            | FnVal.nonfunc => []) }

/-- One call of the throttled proxy (`throttledFn`, lines 124-152).
The guard `isFirstRunRef.current || timeSinceLastRun >= delay` is mirrored
with `fnLastRan = none` standing for the `-Infinity` initial timestamp
(for which `now - (-Infinity) >= delay` is true).  The else branch first
runs `clearTimeout` on any pending handle and then `setTimeout` for
`delay - timeSinceLastRun`: modelled by overwriting the slot with a fresh
id, due at `t + (delay - (t - l))`. -/
def stepCall (s : State α) (t : Int) (a : α) : State α :=
  let s1 := { s with latestArgs := a }
  match s.isFirstRun, s.fnLastRan with
  | true, _ => fireNow s1 t
  | false, none => fireNow s1 t
  | false, some l =>
    if s.delay ≤ t - l then fireNow s1 t
    else { s1 with timeout := some (s.nextId, t + (s.delay - (t - l)))
                   nextId := s.nextId + 1 }

/-- Events of the action-mode throttle machine: a call of the proxy at
time `t` with payload `a`; the armed trailing callback running at time
`u`; a re-render delivering a (possibly new) wrapped callable and delay
prop at time `t`. -/
inductive Event (α : Type) where
  | call (t : Int) (a : α)
  | fire (u : Int)
  | render (t : Int) (f : FnVal) (d : Int)
deriving DecidableEq

/-- One transition.  `fire` is the trailing `setTimeout` callback (lines
144-151): it stamps `fnLastRanRef = Date.now()`, invokes the current
`fnRef` with the current `latestArgsRef`, and clears `timeoutRef`; it is a
no-op when nothing is armed.  `render` updates `fnRef` (effect, lines
64-66) and, when the delay prop changed, `useCallback(..., [delay])`
produces a fresh proxy closure over the new delay; the pending timer slot
is not touched in either case. -/
def step (s : State α) : Event α → State α
  | Event.call t a => stepCall s t a
  | Event.fire u =>
    match s.timeout with
    | none => s
    | some _ =>
      { s with fnLastRan := some u, timeout := none
               log := s.log ++ (match s.fnRef with
                                | FnVal.func j => [(j, s.latestArgs, u)]
                                | FnVal.nonfunc => []) }
  | Event.render _ f d =>
    if d = s.delay then { s with fnRef := f }
    else { s with fnRef := f, delay := d
                  proxyId := s.nextProxyId, nextProxyId := s.nextProxyId + 1 }

/-- Run a trace of events from a state. -/
def run (s : State α) (es : List (Event α)) : State α :=
  es.foldl step s

/-- The payload of the last `call` event of a trace (`a0` if none): what
`latestArgsRef.current` should be after the trace. -/
def lastArgs (a0 : α) (es : List (Event α)) : α :=
  es.foldl (fun a e => match e with | Event.call _ v => v | _ => a) a0

/-- Iterated calls, for reasoning about bursts of proxy calls. -/
def runCalls (s : State α) (cs : List (Int × α)) : State α :=
  cs.foldl (fun s p => step s (Event.call p.1 p.2)) s

end ThrottleFn

namespace ThrottleFn

theorem stepCall_latestArgs (s : State α) (t : Int) (a : α) :
    (stepCall s t a).latestArgs = a := by
  unfold stepCall fireNow
  cases s.isFirstRun <;> cases s.fnLastRan <;> simp <;> split <;> rfl

theorem step_latestArgs (s : State α) (e : Event α) :
    (step s e).latestArgs =
      (match e with | Event.call _ v => v | _ => s.latestArgs) := by
  cases e with
  | call t a => exact stepCall_latestArgs s t a
  | fire u =>
    unfold step
    cases s.timeout <;> rfl
  | render t f d =>
    unfold step
    by_cases h : d = s.delay <;> simp [h]

theorem run_latestArgs (s : State α) (es : List (Event α)) :
    (run s es).latestArgs = lastArgs s.latestArgs es := by
  induction es generalizing s with
  | nil => rfl
  | cons e es ih =>
    show (run (step s e) es).latestArgs = _
    rw [ih, step_latestArgs]
    cases e <;> rfl

end ThrottleFn

namespace DebounceFn

/-- State of `useDebounce` in action mode (useClickOutside.ts, second
document, lines 139-218), restricted to the refs the `debouncedFn` path
touches: `fnRef`, `latestArgsRef`, `timeoutRef` (handle id and absolute
due time), the `delay` captured by the current `useCallback(..., [delay])`
closure, the identity of that closure (`proxyId`), fresh-id counters, and
a log of performed invocations `(callable id, args, time)`. -/
structure State (α : Type) where
  fnRef : FnVal
  latestArgs : α
  timeout : Option (Nat × Int)
  nextId : Nat
  delay : Int
  proxyId : Nat
  nextProxyId : Nat
  log : List (Nat × α × Int)
deriving DecidableEq

/-- Mount: `useRef` initialisers (lines 147-151); `latestArgsRef` starts
as `[]` in the source, the model takes an explicit initial payload. -/
def init (a0 : α) (fn : FnVal) (d : Int) : State α :=
  { fnRef := fn, latestArgs := a0, timeout := none, nextId := 0
    delay := d, proxyId := 0, nextProxyId := 1, log := [] }

/-- Events: a call of the debounced proxy; the armed callback running at
time `u`; a re-render delivering the wrapped value and delay props. -/
inductive Event (α : Type) where
  | call (t : Int) (a : α)
  | fire (u : Int)
  | render (t : Int) (f : FnVal) (d : Int)
deriving DecidableEq

/-- One transition, mirroring the source.  `call` is `debouncedFn` (lines
194-209): `clearTimeout` any pending handle, store the args in
`latestArgsRef`, `setTimeout` for the full `delay` (fresh handle, due
`t + delay`).  `fire` is the armed callback (lines 202-208): read
`fnRef.current` at fire time, invoke it with `latestArgsRef.current` only
if it is a function, then clear `timeoutRef`; a no-op when nothing is
armed.  `render` is the effect of lines 153-158 updating `fnRef`, plus
`useCallback(..., [delay])`: a changed delay yields a fresh proxy closure
over the new delay; neither path touches the pending timer slot (the
cleanup effect of lines 185-191 runs only at unmount). -/
def step (s : State α) : Event α → State α
  | Event.call t a =>
    { s with latestArgs := a, timeout := some (s.nextId, t + s.delay)
             nextId := s.nextId + 1 }
  | Event.fire u =>
    match s.timeout with
    | none => s
    | some _ =>
      match s.fnRef with
      | FnVal.func j =>
        { s with log := s.log ++ [(j, s.latestArgs, u)], timeout := none }
      | FnVal.nonfunc => { s with timeout := none }
  | Event.render _ f d =>
    if d = s.delay then { s with fnRef := f }
    else { s with fnRef := f, delay := d
                  proxyId := s.nextProxyId, nextProxyId := s.nextProxyId + 1 }

/-- Run a trace of events from a state. -/
def run (s : State α) (es : List (Event α)) : State α :=
  es.foldl step s

/-- The payload of the last `call` event of a trace (`a0` if none). -/
def lastArgs (a0 : α) (es : List (Event α)) : α :=
  es.foldl (fun a e => match e with | Event.call _ v => v | _ => a) a0

theorem debStep_latestArgs (s : State α) (e : Event α) :
    (step s e).latestArgs =
      (match e with | Event.call _ v => v | _ => s.latestArgs) := by
  cases e with
  | call t a => rfl
  | fire u =>
    unfold step
    cases s.timeout with
    | none => rfl
    | some p => cases s.fnRef <;> rfl
  | render t f d =>
    unfold step
    by_cases h : d = s.delay <;> simp [h]

theorem debRun_latestArgs (s : State α) (es : List (Event α)) :
    (run s es).latestArgs = lastArgs s.latestArgs es := by
  induction es generalizing s with
  | nil => rfl
  | cons e es ih =>
    show (run (step s e) es).latestArgs = _
    rw [ih, debStep_latestArgs]
    cases e <;> rfl

end DebounceFn

namespace DebounceValue

/-- State of `useDebounce` in value mode (useClickOutside.ts, second
document): `debouncedValue` (the `useState` output), `latestValueRef`,
`valueTimeoutRef` (absolute due time of the armed callback), and the
current `delay` prop. -/
structure State (α : Type) where
  debouncedValue : α
  latestValue : α
  valueTimeout : Option Int
  delay : Int
deriving DecidableEq

/-- Mount with initial value `v0` at time `t0`: `useState` seeds the
output with `v0` (line 144), and the value effect (lines 160-183) runs
once on mount, storing `v0` in `latestValueRef` and arming a `setTimeout`
for the full `delay`. -/
def init (t0 : Int) (v0 : α) (d : Int) : State α :=
  { debouncedValue := v0, latestValue := v0
    valueTimeout := some (t0 + d), delay := d }

/-- Events: an effect run for a changed input value at time `t`; an
effect run for a changed delay prop with the same input value; the armed
callback running at time `u`. -/
inductive Event (α : Type) where
  | upd (t : Int) (v : α)
  | setDelay (t : Int) (d : Int)
  | fire (u : Int)
deriving DecidableEq

/-- One transition, mirroring the value effect (lines 160-183) and its
armed callback.  Any rerun of the effect (new value or new delay)
`clearTimeout`s the pending handle, stores the current input in
`latestValueRef`, and arms a fresh `setTimeout` for the full current
`delay`.  The callback copies `latestValueRef.current` into the output
and clears the slot; it is a no-op when nothing is armed. -/
def step (s : State α) : Event α → State α
  | Event.upd t v =>
    { s with latestValue := v, valueTimeout := some (t + s.delay) }
  | Event.setDelay t d =>
    { s with delay := d, valueTimeout := some (t + d) }
  | Event.fire _ =>
    match s.valueTimeout with
    | none => s
    | some _ =>
      { s with debouncedValue := s.latestValue, valueTimeout := none }

/-- Run a trace of events from a state. -/
def run (s : State α) (es : List (Event α)) : State α :=
  es.foldl step s

/-- The value of the last `upd` event of a trace (`v0` if none). -/
def lastValue (v0 : α) (es : List (Event α)) : α :=
  es.foldl (fun a e => match e with | Event.upd _ v => v | _ => a) v0

/-- Value updates only, for the settling property. -/
def runUpds (s : State α) (us : List (Int × α)) : State α :=
  us.foldl (fun s p => step s (Event.upd p.1 p.2)) s

/-- Consecutive update times strictly increase and lie strictly less than
one window apart, starting from time `prev`. -/
def gapsLt (d : Int) : Int → List (Int × α) → Bool
  | _, [] => true
  | prev, (t, _) :: rest => (prev < t && t - prev < d) && gapsLt d t rest

theorem step_latestValue (s : State α) (e : Event α) :
    (step s e).latestValue =
      (match e with | Event.upd _ v => v | _ => s.latestValue) := by
  cases e with
  | upd t v => rfl
  | setDelay t d => rfl
  | fire u =>
    unfold step
    cases s.valueTimeout <;> rfl

theorem run_latestValue (s : State α) (es : List (Event α)) :
    (run s es).latestValue = lastValue s.latestValue es := by
  induction es generalizing s with
  | nil => rfl
  | cons e es ih =>
    show (run (step s e) es).latestValue = _
    rw [ih, step_latestValue]
    cases e <;> rfl

theorem runUpds_debouncedValue (s : State α) (us : List (Int × α)) :
    (runUpds s us).debouncedValue = s.debouncedValue := by
  induction us generalizing s with
  | nil => rfl
  | cons p us ih => exact ih _

theorem runUpds_delay (s : State α) (us : List (Int × α)) :
    (runUpds s us).delay = s.delay := by
  induction us generalizing s with
  | nil => rfl
  | cons p us ih => exact ih _

theorem runUpds_append (s : State α) (xs ys : List (Int × α)) :
    runUpds s (xs ++ ys) = runUpds (runUpds s xs) ys :=
  List.foldl_append _ _ _ _

end DebounceValue

namespace ThrottleValue

/-- State of `useThrottle` in value mode (src/unnamed/part_002, lines
50-113): `throttledValue` (the `useState` output), `pendingValueRef`,
`lastRanRef`, `lastScheduledRef`, `valueTimeoutRef` (absolute due time),
and the current `delay` prop.  `isInitialMountRef` is consumed at mount
and is therefore folded into `init`. -/
structure State (α : Type) where
  throttledValue : α
  pendingValue : α
  lastRan : Int
  lastScheduled : Int
  valueTimeout : Option Int
  delay : Int
deriving DecidableEq

/-- Mount with initial value `v0` at time `t0`: the initial-mount branch
(lines 73-79) leaves the `useState` output at `v0` and stamps
`lastRanRef = lastScheduledRef = Date.now()`; no timer is armed. -/
def init (t0 : Int) (v0 : α) (d : Int) : State α :=
  { throttledValue := v0, pendingValue := v0, lastRan := t0
    lastScheduled := t0, valueTimeout := none, delay := d }

/-- Events: an effect run for a changed input value at time `t`, and the
armed trailing callback running at time `u`. -/
inductive Event (α : Type) where
  | upd (t : Int) (v : α)
  | fire (u : Int)
deriving DecidableEq

/-- One transition, mirroring the value effect (lines 81-112).  On a new
value: store it in `pendingValueRef`, `clearTimeout` any pending handle,
then either publish immediately and stamp both timestamps (when
`now - lastScheduled >= delay`) or arm a trailing `setTimeout` for
`delay - timeSinceLastScheduled` ms, i.e. due at `lastScheduled + delay`.
The trailing callback (lines 99-104) publishes `pendingValueRef.current`
and stamps both timestamps with its own `Date.now()`. -/
def step (s : State α) : Event α → State α
  | Event.upd t v =>
    let s1 := { s with pendingValue := v, valueTimeout := none }
    if s.delay ≤ t - s.lastScheduled then
      { s1 with throttledValue := v, lastRan := t, lastScheduled := t }
    else
      { s1 with valueTimeout := some (t + (s.delay - (t - s.lastScheduled))) }
  | Event.fire u =>
    match s.valueTimeout with
    | none => s
    | some _ =>
      { s with throttledValue := s.pendingValue, lastRan := u
               lastScheduled := u, valueTimeout := none }

/-- Run a trace of events from a state. -/
def run (s : State α) (es : List (Event α)) : State α :=
  es.foldl step s

/-- The value of the last `upd` event of a trace (`v0` if none). -/
def lastValue (v0 : α) (es : List (Event α)) : α :=
  es.foldl (fun a e => match e with | Event.upd _ v => v | _ => a) v0

theorem step_pendingValue (s : State α) (e : Event α) :
    (step s e).pendingValue =
      (match e with | Event.upd _ v => v | _ => s.pendingValue) := by
  cases e with
  | upd t v =>
    unfold step
    by_cases h : s.delay ≤ t - s.lastScheduled <;> simp [h]
  | fire u =>
    unfold step
    cases s.valueTimeout <;> rfl

theorem run_pendingValue (s : State α) (es : List (Event α)) :
    (run s es).pendingValue = lastValue s.pendingValue es := by
  induction es generalizing s with
  | nil => rfl
  | cons e es ih =>
    show (run (step s e) es).pendingValue = _
    rw [ih, step_pendingValue]
    cases e <;> rfl

end ThrottleValue

/-- C1: throttle action mode, trailing-edge scenario.  With window 200 ms
and calls carrying payloads first/second/third at t = 0, 60, 120 on the
same throttled proxy, the wrapped action runs exactly twice: with the
first payload at t = 0 (leading edge) and with the third at t = 200
(trailing edge, the timer armed at t = 60 and re-armed at t = 120 being
due at t = 200); the second payload is never delivered. -/
theorem C1_throttle_trailing_edge :
    (ThrottleFn.run (ThrottleFn.init ("") (FnVal.func 0) 200)
        [ThrottleFn.Event.call 0 ("first"), ThrottleFn.Event.call 60 ("second"),
         ThrottleFn.Event.call 120 ("third")]).timeout = some (1, 200)
    ∧ (ThrottleFn.run (ThrottleFn.init ("") (FnVal.func 0) 200)
        [ThrottleFn.Event.call 0 ("first"), ThrottleFn.Event.call 60 ("second"),
         ThrottleFn.Event.call 120 ("third"), ThrottleFn.Event.fire 200]).log
      = [(0, ("first"), 0), (0, ("third"), 200)] := by
  constructor <;> rfl

namespace ThrottleFn

theorem stepCall_suppressed (s : State α) (l t : Int) (a : α)
    (hfr : s.isFirstRun = false) (hl : s.fnLastRan = some l)
    (ht : t - l < s.delay) :
    step s (Event.call t a)
      = { s with latestArgs := a
                 timeout := some (s.nextId, t + (s.delay - (t - l)))
                 nextId := s.nextId + 1 } := by
  unfold step stepCall
  rw [hfr, hl]
  simp [not_le.mpr ht]

theorem runCalls_suppressed (s : State α) (l : Int) (cs : List (Int × α))
    (hfr : s.isFirstRun = false) (hl : s.fnLastRan = some l)
    (hin : ∀ p ∈ cs, p.1 - l < s.delay) (hne : cs ≠ []) :
    ∃ i, (runCalls s cs).timeout = some (i, l + s.delay)
      ∧ (runCalls s cs).fnLastRan = some l
      ∧ (runCalls s cs).delay = s.delay := by
  induction cs generalizing s with
  | nil => exact absurd rfl hne
  | cons p rest ih =>
    obtain ⟨t, a⟩ := p
    have ht : t - l < s.delay := hin (t, a) (by simp)
    have hstep := stepCall_suppressed s l t a hfr hl ht
    have hrun : runCalls s ((t, a) :: rest)
        = runCalls (step s (Event.call t a)) rest := rfl
    cases rest with
    | nil =>
      refine ⟨s.nextId, ?_, ?_, ?_⟩ <;> rw [hrun, hstep]
      · show some (s.nextId, t + (s.delay - (t - l))) = _
        have harith : t + (s.delay - (t - l)) = l + s.delay := by ring
        rw [harith]
      · exact hl
      · rfl
    | cons q qs =>
      have hfr2 : (step s (Event.call t a)).isFirstRun = false := by
        rw [hstep]; exact hfr
      have hl2 : (step s (Event.call t a)).fnLastRan = some l := by
        rw [hstep]; exact hl
      have hd2 : (step s (Event.call t a)).delay = s.delay := by
        rw [hstep]
      have hin2 : ∀ p ∈ q :: qs, p.1 - l < (step s (Event.call t a)).delay := by
        intro p hp
        rw [hd2]
        exact hin p (List.mem_cons_of_mem _ hp)
      obtain ⟨i, h1, h2, h3⟩ :=
        ih (step s (Event.call t a)) hfr2 hl2 hin2 (by simp)
      rw [hrun]
      exact ⟨i, by rw [h1, hd2], h2, by rw [h3, hd2]⟩

end ThrottleFn

/-- C9: trailing target time is invariant under re-arming.  In throttle
action mode, a suppressed call at time `t` (arriving within the window of
the last fire at time `l`) cancels the pending handle and arms a fresh
one for `delay - (t - l)` ms, so its absolute due time is
`t + (delay - (t - l)) = l + delay`; consequently, after any non-empty
burst of suppressed calls (each within the window of the same last fire),
the armed timer is due exactly at `l + delay`, independent of how many
suppressed calls arrived and of their individual times, and the last-fire
timestamp is untouched. -/
theorem C9_trailing_target_time_invariant {α : Type} (s : ThrottleFn.State α)
    (l : Int) (hfr : s.isFirstRun = false) (hl : s.fnLastRan = some l) :
    (∀ (t : Int) (a : α), t - l < s.delay →
        (ThrottleFn.step s (ThrottleFn.Event.call t a)).timeout
            = some (s.nextId, t + (s.delay - (t - l)))
          ∧ t + (s.delay - (t - l)) = l + s.delay)
    ∧ (∀ cs : List (Int × α), (∀ p ∈ cs, p.1 - l < s.delay) → cs ≠ [] →
        ∃ i, (ThrottleFn.runCalls s cs).timeout = some (i, l + s.delay)
          ∧ (ThrottleFn.runCalls s cs).fnLastRan = some l) := by
  constructor
  · intro t a ht
    constructor
    · rw [ThrottleFn.stepCall_suppressed s l t a hfr hl ht]
    · ring
  · intro cs hin hne
    obtain ⟨i, h1, h2, _⟩ := ThrottleFn.runCalls_suppressed s l cs hfr hl hin hne
    exact ⟨i, h1, h2⟩

/-- Witness for C9 at a concrete input: from the state reached after a
leading call of payload 10 at t = 0 with window 200 (last fire at 0), a
suppressed call of payload 11 at t = 50 arms a fresh handle due at
50 + (200 - 50) = 200, and the suppressed burst of payloads 11, 12, 13 at
t = 50, 90, 130 leaves a timer due exactly at 0 + 200 while the last-fire
timestamp stays 0. -/
theorem C9_witness :
    ((ThrottleFn.step (ThrottleFn.run (ThrottleFn.init 9 (FnVal.func 0) 200)
          [ThrottleFn.Event.call 0 10]) (ThrottleFn.Event.call 50 11)).timeout
        = some (0, 50 + (200 - (50 - 0)))
      ∧ (50 : Int) + (200 - (50 - 0)) = 0 + 200)
    ∧ (∃ i, (ThrottleFn.runCalls (ThrottleFn.run (ThrottleFn.init 9 (FnVal.func 0) 200)
            [ThrottleFn.Event.call 0 10]) [(50, 11), (90, 12), (130, 13)]).timeout
          = some (i, 0 + 200)
        ∧ (ThrottleFn.runCalls (ThrottleFn.run (ThrottleFn.init 9 (FnVal.func 0) 200)
            [ThrottleFn.Event.call 0 10]) [(50, 11), (90, 12), (130, 13)]).fnLastRan
          = some 0) :=
  ⟨(C9_trailing_target_time_invariant
      (ThrottleFn.run (ThrottleFn.init 9 (FnVal.func 0) 200)
        [ThrottleFn.Event.call 0 10]) 0 (by rfl) (by rfl)).1 50 11 (by decide),
   (C9_trailing_target_time_invariant
      (ThrottleFn.run (ThrottleFn.init 9 (FnVal.func 0) 200)
        [ThrottleFn.Event.call 0 10]) 0 (by rfl) (by rfl)).2
     [(50, 11), (90, 12), (130, 13)] (by decide) (by decide)⟩

/-- C4, counterexample: the claim says a call arriving within the window
while a trailing timer is pending leaves the pending timer alone (not
cancelled, not re-armed).  In the code (throttledFn, lines 138-151) the
suppressed branch always runs `clearTimeout` and then `setTimeout`: with
window 200 and a leading call at t = 0, the suppressed call at t = 60
arms handle 0, and the suppressed call at t = 120 destroys handle 0 and
arms the fresh handle 1 (due at the same boundary 200), so the pending
timer is not left alone. -/
theorem C4_counterexample :
    (ThrottleFn.run (ThrottleFn.init 0 (FnVal.func 0) 200)
        [ThrottleFn.Event.call 0 1, ThrottleFn.Event.call 60 2]).timeout
      = some (0, 200)
    ∧ (ThrottleFn.run (ThrottleFn.init 0 (FnVal.func 0) 200)
        [ThrottleFn.Event.call 0 1, ThrottleFn.Event.call 60 2,
         ThrottleFn.Event.call 120 3]).timeout
      = some (1, 200)
    ∧ (0 : Nat) ≠ 1 := by
  refine ⟨rfl, rfl, ?_⟩
  decide

/-- C4, amended: a throttled-proxy call arriving within the window while
a trailing timer is pending cancels that handle and arms a fresh one, but
the fresh handle targets the same absolute window boundary (last fire
plus window, since its delay is window minus elapsed), and when it fires
it delivers the latest payload regardless of which input armed it. -/
theorem C4_amended_rearm_same_boundary {α : Type} (s : ThrottleFn.State α)
    (l t u dd : Int) (i j : Nat) (a : α)
    (hfr : s.isFirstRun = false) (hl : s.fnLastRan = some l)
    (hto : s.timeout = some (i, dd)) (hdd : dd = l + s.delay)
    (ht : t - l < s.delay) (hfn : s.fnRef = FnVal.func j) :
    (ThrottleFn.step s (ThrottleFn.Event.call t a)).timeout = some (s.nextId, dd)
    ∧ (ThrottleFn.step s (ThrottleFn.Event.call t a)).latestArgs = a
    ∧ (ThrottleFn.step (ThrottleFn.step s (ThrottleFn.Event.call t a))
        (ThrottleFn.Event.fire u)).log = s.log ++ [(j, a, u)] := by
  have hstep := ThrottleFn.stepCall_suppressed s l t a hfr hl ht
  have harith : t + (s.delay - (t - l)) = l + s.delay := by ring
  refine ⟨?_, ?_, ?_⟩
  · rw [hstep]
    show some (s.nextId, t + (s.delay - (t - l))) = some (s.nextId, dd)
    rw [harith, hdd]
  · rw [hstep]
  · rw [hstep]
    simp [ThrottleFn.step, hfn]

/-- Witness for C4 (amended) at a concrete input: after a leading call of
payload 1 at t = 0 and a suppressed call of payload 2 at t = 60 with
window 200 (handle 0 pending, due 200), the suppressed call of payload 3
at t = 120 yields the fresh handle 1 due at the same boundary 200 with
latest payload 3, and firing it at t = 200 delivers payload 3. -/
theorem C4_amended_witness :
    (ThrottleFn.step (ThrottleFn.run (ThrottleFn.init 0 (FnVal.func 0) 200)
        [ThrottleFn.Event.call 0 1, ThrottleFn.Event.call 60 2])
      (ThrottleFn.Event.call 120 3)).timeout = some (1, 200)
    ∧ (ThrottleFn.step (ThrottleFn.run (ThrottleFn.init 0 (FnVal.func 0) 200)
        [ThrottleFn.Event.call 0 1, ThrottleFn.Event.call 60 2])
      (ThrottleFn.Event.call 120 3)).latestArgs = 3
    ∧ (ThrottleFn.step (ThrottleFn.step
        (ThrottleFn.run (ThrottleFn.init 0 (FnVal.func 0) 200)
          [ThrottleFn.Event.call 0 1, ThrottleFn.Event.call 60 2])
        (ThrottleFn.Event.call 120 3))
      (ThrottleFn.Event.fire 200)).log = [(0, 1, 0)] ++ [(0, (3 : Nat), 200)] :=
  C4_amended_rearm_same_boundary
    (ThrottleFn.run (ThrottleFn.init 0 (FnVal.func 0) 200)
      [ThrottleFn.Event.call 0 1, ThrottleFn.Event.call 60 2])
    0 120 200 200 0 0 3 (by rfl) (by rfl) (by rfl) (by decide) (by decide) (by rfl)

/-- C5, counterexample: the claim says a leading-edge fire cancels any
pending trailing timer, so that no trailing timer is ever pending after a
leading-edge fire.  The leading branch of `throttledFn` (lines 131-137)
contains no `clearTimeout`.  With window 200: a call of payload 1 at
t = 0 fires leading, a call of payload 2 at t = 60 arms handle 0 due at
t = 200, and a call of payload 3 at t = 200 — processed before the
equally-due callback of handle 0, an ordering the host permits — fires
leading (elapsed 200 >= 200); afterwards handle 0 is still pending, and
when its callback then runs it delivers payload 3 a second time. -/
theorem C5_counterexample :
    (ThrottleFn.run (ThrottleFn.init 0 (FnVal.func 0) 200)
        [ThrottleFn.Event.call 0 1, ThrottleFn.Event.call 60 2,
         ThrottleFn.Event.call 200 3]).log = [(0, 1, 0), (0, 3, 200)]
    ∧ (ThrottleFn.run (ThrottleFn.init 0 (FnVal.func 0) 200)
        [ThrottleFn.Event.call 0 1, ThrottleFn.Event.call 60 2,
         ThrottleFn.Event.call 200 3]).timeout = some (0, 200)
    ∧ (ThrottleFn.run (ThrottleFn.init 0 (FnVal.func 0) 200)
        [ThrottleFn.Event.call 0 1, ThrottleFn.Event.call 60 2,
         ThrottleFn.Event.call 200 3, ThrottleFn.Event.fire 200]).log
      = [(0, 1, 0), (0, 3, 200), (0, (3 : Nat), 200)] := by
  exact ⟨rfl, rfl, rfl⟩

/-- C5, amended: in action mode, a qualifying call (first call ever, or
elapsed since last fire at least the window) fires immediately with the
current payload, updates the last-fire timestamp and clears the
first-run flag, but leaves the pending-timer slot exactly as it was — a
leading-edge fire does not cancel a pending trailing timer.  In value
mode the property holds as claimed: every input first cancels any pending
timer, so an immediate emission leaves no timer pending. -/
theorem C5_amended_leading_edge :
    (∀ (α : Type) (s : ThrottleFn.State α) (t : Int) (a : α) (j : Nat),
      s.fnRef = FnVal.func j →
      (s.isFirstRun = true ∨ ∃ l, s.fnLastRan = some l ∧ s.delay ≤ t - l) →
      (ThrottleFn.step s (ThrottleFn.Event.call t a)).log = s.log ++ [(j, a, t)]
      ∧ (ThrottleFn.step s (ThrottleFn.Event.call t a)).fnLastRan = some t
      ∧ (ThrottleFn.step s (ThrottleFn.Event.call t a)).isFirstRun = false
      ∧ (ThrottleFn.step s (ThrottleFn.Event.call t a)).timeout = s.timeout)
    ∧ (∀ (α : Type) (sv : ThrottleValue.State α) (t : Int) (v : α),
      sv.delay ≤ t - sv.lastScheduled →
      (ThrottleValue.step sv (ThrottleValue.Event.upd t v)).valueTimeout = none
      ∧ (ThrottleValue.step sv (ThrottleValue.Event.upd t v)).throttledValue = v
      ∧ (ThrottleValue.step sv (ThrottleValue.Event.upd t v)).lastScheduled = t
      ∧ (ThrottleValue.step sv (ThrottleValue.Event.upd t v)).lastRan = t) := by
  constructor
  · intro α s t a j hfn hq
    have key : ThrottleFn.step s (ThrottleFn.Event.call t a)
        = ThrottleFn.fireNow { s with latestArgs := a } t := by
      unfold ThrottleFn.step ThrottleFn.stepCall
      rcases hq with hfr | ⟨l, hl, hge⟩
      · rw [hfr]
      · rw [hl]
        cases hsf : s.isFirstRun
        · simp [hge]
        · rfl
    rw [key]
    unfold ThrottleFn.fireNow
    simp [hfn]
  · intro α sv t v h
    unfold ThrottleValue.step
    simp [h]

/-- Witness for C5 (amended) at concrete inputs.  Action mode: after a
leading call of payload 1 at t = 0 and a suppressed call of payload 2 at
t = 60 with window 200 (handle 0 pending), the call of payload 3 at
t = 200 qualifies for a leading fire, delivers 3 immediately, and leaves
handle 0 pending.  Value mode: from mount at t = 0 with value 5 and
window 200, the update to 6 at t = 250 publishes immediately and leaves
no timer pending. -/
theorem C5_amended_witness :
    ((ThrottleFn.step (ThrottleFn.run (ThrottleFn.init 0 (FnVal.func 0) 200)
          [ThrottleFn.Event.call 0 1, ThrottleFn.Event.call 60 2])
        (ThrottleFn.Event.call 200 3)).log = [(0, 1, 0)] ++ [(0, (3 : Nat), 200)]
      ∧ (ThrottleFn.step (ThrottleFn.run (ThrottleFn.init 0 (FnVal.func 0) 200)
          [ThrottleFn.Event.call 0 1, ThrottleFn.Event.call 60 2])
        (ThrottleFn.Event.call 200 3)).fnLastRan = some 200
      ∧ (ThrottleFn.step (ThrottleFn.run (ThrottleFn.init 0 (FnVal.func 0) 200)
          [ThrottleFn.Event.call 0 1, ThrottleFn.Event.call 60 2])
        (ThrottleFn.Event.call 200 3)).isFirstRun = false
      ∧ (ThrottleFn.step (ThrottleFn.run (ThrottleFn.init 0 (FnVal.func 0) 200)
          [ThrottleFn.Event.call 0 1, ThrottleFn.Event.call 60 2])
        (ThrottleFn.Event.call 200 3)).timeout
        = (ThrottleFn.run (ThrottleFn.init 0 (FnVal.func 0) 200)
          [ThrottleFn.Event.call 0 1, ThrottleFn.Event.call 60 2]).timeout)
    ∧ ((ThrottleValue.step (ThrottleValue.init 0 5 200)
          (ThrottleValue.Event.upd 250 6)).valueTimeout = none
      ∧ (ThrottleValue.step (ThrottleValue.init 0 5 200)
          (ThrottleValue.Event.upd 250 (6 : Nat))).throttledValue = 6
      ∧ (ThrottleValue.step (ThrottleValue.init 0 5 200)
          (ThrottleValue.Event.upd 250 6)).lastScheduled = 250
      ∧ (ThrottleValue.step (ThrottleValue.init 0 5 200)
          (ThrottleValue.Event.upd 250 6)).lastRan = 250) :=
  ⟨C5_amended_leading_edge.1 Nat
      (ThrottleFn.run (ThrottleFn.init 0 (FnVal.func 0) 200)
        [ThrottleFn.Event.call 0 1, ThrottleFn.Event.call 60 2])
      200 3 0 (by rfl) (Or.inr ⟨0, by rfl, by decide⟩),
   C5_amended_leading_edge.2 Nat (ThrottleValue.init 0 5 200) 250 6 (by decide)⟩

/-- C6, counterexample: the claim says that in both modes a delay change
while a debounce timer is pending cancels the pending execution and arms
a fresh one under the new window, so no firing ever occurs on the old
schedule.  In action mode the unmount cleanup (lines 185-191) has empty
deps and `useCallback(..., [delay])` merely builds a new closure, so a
delay change touches no pending handle: with delay 500, a proxy call of
payload 7 at t = 0 arms handle 0 due at t = 500; after the delay prop
changes to 100 at t = 10, handle 0 is still pending, due at 500 (not
re-armed to 10 + 100 = 110), and firing it at t = 500 delivers payload 7
on the schedule computed from the old window. -/
theorem C6_counterexample :
    (DebounceFn.run (DebounceFn.init 0 (FnVal.func 0) 500)
        [DebounceFn.Event.call 0 7,
         DebounceFn.Event.render 10 (FnVal.func 0) 100]).timeout = some (0, 500)
    ∧ (DebounceFn.run (DebounceFn.init 0 (FnVal.func 0) 500)
        [DebounceFn.Event.call 0 7,
         DebounceFn.Event.render 10 (FnVal.func 0) 100]).delay = 100
    ∧ (DebounceFn.run (DebounceFn.init 0 (FnVal.func 0) 500)
        [DebounceFn.Event.call 0 7,
         DebounceFn.Event.render 10 (FnVal.func 0) 100,
         DebounceFn.Event.fire 500]).log = [(0, (7 : Nat), 500)] := by
  exact ⟨rfl, rfl, rfl⟩

/-- C6, amended: in value mode the claim holds — a delay change reruns
the value effect (deps `[valueOrFn, delay]`), which cancels the pending
execution and arms a fresh one for the new window, reading the latest
value at fire time.  In action mode a delay change leaves any pending
execution untouched: it fires on the schedule computed from the old
window, and only subsequent proxy calls use the new window. -/
theorem C6_amended_window_change :
    (∀ (α : Type) (s : DebounceValue.State α) (t d u : Int),
      (DebounceValue.step s (DebounceValue.Event.setDelay t d)).valueTimeout
        = some (t + d)
      ∧ (DebounceValue.step s (DebounceValue.Event.setDelay t d)).latestValue
        = s.latestValue
      ∧ (DebounceValue.step s (DebounceValue.Event.setDelay t d)).delay = d
      ∧ (DebounceValue.step (DebounceValue.step s (DebounceValue.Event.setDelay t d))
          (DebounceValue.Event.fire u)).debouncedValue = s.latestValue)
    ∧ (∀ (α : Type) (s : DebounceFn.State α) (t : Int) (f : FnVal) (d : Int),
      d ≠ s.delay →
      (DebounceFn.step s (DebounceFn.Event.render t f d)).timeout = s.timeout
      ∧ (DebounceFn.step s (DebounceFn.Event.render t f d)).delay = d) := by
  constructor
  · intro α s t d u
    exact ⟨rfl, rfl, rfl, rfl⟩
  · intro α s t f d hd
    unfold DebounceFn.step
    simp [hd]

/-- Witness for C6 (amended) at concrete inputs.  Value mode: from mount
at t = 0 with value 5 and window 500, changing the window to 100 at
t = 10 re-arms the timer due at 110 with the latest value 5, which a fire
at t = 110 publishes.  Action mode: after a proxy call of payload 7 at
t = 0 under window 500 (handle 0 due 500), changing the window to 100
leaves handle 0 pending, due 500. -/
theorem C6_amended_witness :
    ((DebounceValue.step (DebounceValue.init 0 (5 : Nat) 500)
          (DebounceValue.Event.setDelay 10 100)).valueTimeout = some (10 + 100)
      ∧ (DebounceValue.step (DebounceValue.init 0 (5 : Nat) 500)
          (DebounceValue.Event.setDelay 10 100)).latestValue
        = (DebounceValue.init 0 (5 : Nat) 500).latestValue
      ∧ (DebounceValue.step (DebounceValue.init 0 (5 : Nat) 500)
          (DebounceValue.Event.setDelay 10 100)).delay = 100
      ∧ (DebounceValue.step (DebounceValue.step (DebounceValue.init 0 (5 : Nat) 500)
            (DebounceValue.Event.setDelay 10 100))
          (DebounceValue.Event.fire 110)).debouncedValue
        = (DebounceValue.init 0 (5 : Nat) 500).latestValue)
    ∧ ((DebounceFn.step (DebounceFn.run (DebounceFn.init 0 (FnVal.func 0) 500)
            [DebounceFn.Event.call 0 (7 : Nat)])
          (DebounceFn.Event.render 10 (FnVal.func 0) 100)).timeout
        = (DebounceFn.run (DebounceFn.init 0 (FnVal.func 0) 500)
            [DebounceFn.Event.call 0 (7 : Nat)]).timeout
      ∧ (DebounceFn.step (DebounceFn.run (DebounceFn.init 0 (FnVal.func 0) 500)
            [DebounceFn.Event.call 0 (7 : Nat)])
          (DebounceFn.Event.render 10 (FnVal.func 0) 100)).delay = 100) :=
  ⟨C6_amended_window_change.1 Nat (DebounceValue.init 0 5 500) 10 100 110,
   C6_amended_window_change.2 Nat
     (DebounceFn.run (DebounceFn.init 0 (FnVal.func 0) 500)
       [DebounceFn.Event.call 0 7]) 10 (FnVal.func 0) 100 (by decide)⟩

/-- C7, counterexample: the claim says a negative window is rejected or
clamped at construction and no host timer is ever armed with a negative
delay.  Neither hook validates `delay` (signatures, lines 139-142 of the
debounce document and 45-48 of the throttle file): with window -100, a
debounce proxy call at t = 0 arms a `setTimeout` whose delay is the raw
-100 (due time 0 + (-100), before the call itself), and the value-mode
mount effect does the same. -/
theorem C7_counterexample :
    (DebounceFn.step (DebounceFn.init 0 (FnVal.func 0) (-100))
        (DebounceFn.Event.call 0 (5 : Nat))).timeout = some (0, 0 + (-100))
    ∧ ((0 : Int) + (-100) < 0)
    ∧ (DebounceValue.init 0 (5 : Nat) (-100)).valueTimeout = some (0 + (-100)) := by
  exact ⟨rfl, by decide, rfl⟩

/-- C7, amended: no validation or clamping of the window exists anywhere:
for every integer window `d` (negative included), a debounce proxy call
at time `t` arms a host timer for the raw delay `d` (due at `t + d`), and
the value-mode mount arms one for the raw `d` as well, so a negative
window does reach the host timer facility. -/
theorem C7_amended_no_validation (α : Type) (d t t0 : Int) (a0 v0 a : α)
    (fn : FnVal) :
    (DebounceFn.step (DebounceFn.init a0 fn d) (DebounceFn.Event.call t a)).timeout
      = some (0, t + d)
    ∧ (DebounceValue.init t0 v0 d).valueTimeout = some (t0 + d) :=
  ⟨rfl, rfl⟩

/-- C8: proxy identity stability.  In both action-mode hooks the proxy
comes from `useCallback(..., [delay])`, so a re-render that changes only
the wrapped callable while the delay prop stays unchanged leaves the
proxy identity (and captured delay) unchanged while updating `fnRef`;
after such a re-configuration, a firing of a pending execution invokes
the newly supplied callable with the latest payload. -/
theorem C8_proxy_identity_stable :
    (∀ (α : Type) (s : DebounceFn.State α) (t u : Int) (f : FnVal),
      (DebounceFn.step s (DebounceFn.Event.render t f s.delay)).proxyId = s.proxyId
      ∧ (DebounceFn.step s (DebounceFn.Event.render t f s.delay)).delay = s.delay
      ∧ (DebounceFn.step s (DebounceFn.Event.render t f s.delay)).fnRef = f
      ∧ ∀ (i j : Nat) (dd : Int), s.timeout = some (i, dd) → f = FnVal.func j →
          (DebounceFn.step (DebounceFn.step s (DebounceFn.Event.render t f s.delay))
            (DebounceFn.Event.fire u)).log = s.log ++ [(j, s.latestArgs, u)])
    ∧ (∀ (α : Type) (s : ThrottleFn.State α) (t u : Int) (f : FnVal),
      (ThrottleFn.step s (ThrottleFn.Event.render t f s.delay)).proxyId = s.proxyId
      ∧ (ThrottleFn.step s (ThrottleFn.Event.render t f s.delay)).delay = s.delay
      ∧ (ThrottleFn.step s (ThrottleFn.Event.render t f s.delay)).fnRef = f
      ∧ ∀ (i j : Nat) (dd : Int), s.timeout = some (i, dd) → f = FnVal.func j →
          (ThrottleFn.step (ThrottleFn.step s (ThrottleFn.Event.render t f s.delay))
            (ThrottleFn.Event.fire u)).log = s.log ++ [(j, s.latestArgs, u)]) := by
  constructor
  · intro α s t u f
    have hr : DebounceFn.step s (DebounceFn.Event.render t f s.delay)
        = { s with fnRef := f } := by
      unfold DebounceFn.step
      simp
    refine ⟨by rw [hr], by rw [hr], by rw [hr], ?_⟩
    intro i j dd hto hf
    rw [hr]
    unfold DebounceFn.step
    have h2 : ({ s with fnRef := f } : DebounceFn.State α).timeout = some (i, dd) :=
      hto
    rw [h2, hf]
  · intro α s t u f
    have hr : ThrottleFn.step s (ThrottleFn.Event.render t f s.delay)
        = { s with fnRef := f } := by
      unfold ThrottleFn.step
      simp
    refine ⟨by rw [hr], by rw [hr], by rw [hr], ?_⟩
    intro i j dd hto hf
    rw [hr]
    unfold ThrottleFn.step
    have h2 : ({ s with fnRef := f } : ThrottleFn.State α).timeout = some (i, dd) :=
      hto
    rw [h2, hf]

/-- Witness for C8 at concrete inputs.  Debounce: after a proxy call of
payload 4 at t = 0 under window 300 made while callable 1 was wrapped
(handle 0 due 300), a re-render at t = 10 that swaps in callable 2 at the
same delay keeps proxy identity 0 and delay 300, stores callable 2, and
the fire at t = 300 invokes callable 2 with payload 4.  Throttle: after a
leading call of payload 1 at t = 0 and a suppressed call of payload 2 at
t = 60 under window 200 with callable 1 wrapped (handle 0 due 200), the
same swap to callable 2 keeps proxy identity 0, and the trailing fire at
t = 200 invokes callable 2 with payload 2. -/
theorem C8_witness :
    ((DebounceFn.step (DebounceFn.run (DebounceFn.init 0 (FnVal.func 1) 300)
          [DebounceFn.Event.call 0 (4 : Nat)])
        (DebounceFn.Event.render 10 (FnVal.func 2) 300)).proxyId = 0
      ∧ (DebounceFn.step (DebounceFn.run (DebounceFn.init 0 (FnVal.func 1) 300)
          [DebounceFn.Event.call 0 (4 : Nat)])
        (DebounceFn.Event.render 10 (FnVal.func 2) 300)).fnRef = FnVal.func 2
      ∧ (DebounceFn.step (DebounceFn.step
            (DebounceFn.run (DebounceFn.init 0 (FnVal.func 1) 300)
              [DebounceFn.Event.call 0 (4 : Nat)])
            (DebounceFn.Event.render 10 (FnVal.func 2) 300))
          (DebounceFn.Event.fire 300)).log = [] ++ [(2, (4 : Nat), 300)])
    ∧ ((ThrottleFn.step (ThrottleFn.run (ThrottleFn.init 0 (FnVal.func 1) 200)
          [ThrottleFn.Event.call 0 1, ThrottleFn.Event.call 60 (2 : Nat)])
        (ThrottleFn.Event.render 70 (FnVal.func 2) 200)).proxyId = 0
      ∧ (ThrottleFn.step (ThrottleFn.step
            (ThrottleFn.run (ThrottleFn.init 0 (FnVal.func 1) 200)
              [ThrottleFn.Event.call 0 1, ThrottleFn.Event.call 60 (2 : Nat)])
            (ThrottleFn.Event.render 70 (FnVal.func 2) 200))
          (ThrottleFn.Event.fire 200)).log = [(1, 1, 0)] ++ [(2, (2 : Nat), 200)]) := by
  refine ⟨⟨?_, ?_, ?_⟩, ⟨?_, ?_⟩⟩
  · exact (C8_proxy_identity_stable.1 Nat
      (DebounceFn.run (DebounceFn.init 0 (FnVal.func 1) 300)
        [DebounceFn.Event.call 0 4]) 10 300 (FnVal.func 2)).1
  · exact (C8_proxy_identity_stable.1 Nat
      (DebounceFn.run (DebounceFn.init 0 (FnVal.func 1) 300)
        [DebounceFn.Event.call 0 4]) 10 300 (FnVal.func 2)).2.2.1
  · exact (C8_proxy_identity_stable.1 Nat
      (DebounceFn.run (DebounceFn.init 0 (FnVal.func 1) 300)
        [DebounceFn.Event.call 0 4]) 10 300 (FnVal.func 2)).2.2.2
      0 2 300 (by rfl) (by rfl)
  · exact (C8_proxy_identity_stable.2 Nat
      (ThrottleFn.run (ThrottleFn.init 0 (FnVal.func 1) 200)
        [ThrottleFn.Event.call 0 1, ThrottleFn.Event.call 60 2]) 70 200
      (FnVal.func 2)).1
  · exact (C8_proxy_identity_stable.2 Nat
      (ThrottleFn.run (ThrottleFn.init 0 (FnVal.func 1) 200)
        [ThrottleFn.Event.call 0 1, ThrottleFn.Event.call 60 2]) 70 200
      (FnVal.func 2)).2.2.2 0 2 200 (by rfl) (by rfl)

/-- C10: debounce action mode fires the callable current at fire time.
If a pending execution was armed and the wrapped callable is then
replaced by a re-render (same delay), the firing invokes whatever `fnRef`
holds at fire time: the newly supplied callable `f` when it is a
function, and nothing at all when the currently wrapped value is not a
function — the callable wrapped when the timer was armed never plays a
role (the result does not depend on the pre-render `fnRef`). -/
theorem C10_debounce_fires_current_callable {α : Type} (s : DebounceFn.State α)
    (t u : Int) (f : FnVal) (i : Nat) (dd : Int)
    (hto : s.timeout = some (i, dd)) :
    (DebounceFn.step (DebounceFn.step s (DebounceFn.Event.render t f s.delay))
        (DebounceFn.Event.fire u)).log
      = s.log ++ (match f with
                  | FnVal.func j => [(j, s.latestArgs, u)]
                  | FnVal.nonfunc => []) := by
  have hr : DebounceFn.step s (DebounceFn.Event.render t f s.delay)
      = { s with fnRef := f } := by
    unfold DebounceFn.step
    simp
  rw [hr]
  unfold DebounceFn.step
  have h2 : ({ s with fnRef := f } : DebounceFn.State α).timeout = some (i, dd) :=
    hto
  rw [h2]
  cases f
  · rfl
  · simp

/-- Witness for C10 at concrete inputs: with window 300, a proxy call of
payload 4 at t = 0 arms handle 0 while callable 1 is wrapped; swapping in
callable 2 and firing at t = 300 invokes callable 2 with payload 4, and
swapping in a non-function instead makes the firing invoke nothing. -/
theorem C10_witness :
    ((DebounceFn.step (DebounceFn.step
          (DebounceFn.run (DebounceFn.init 0 (FnVal.func 1) 300)
            [DebounceFn.Event.call 0 (4 : Nat)])
          (DebounceFn.Event.render 10 (FnVal.func 2) 300))
        (DebounceFn.Event.fire 300)).log = [] ++ [(2, (4 : Nat), 300)])
    ∧ ((DebounceFn.step (DebounceFn.step
          (DebounceFn.run (DebounceFn.init 0 (FnVal.func 1) 300)
            [DebounceFn.Event.call 0 (4 : Nat)])
          (DebounceFn.Event.render 10 FnVal.nonfunc 300))
        (DebounceFn.Event.fire 300)).log = [] ++ []) :=
  ⟨C10_debounce_fires_current_callable
      (DebounceFn.run (DebounceFn.init 0 (FnVal.func 1) 300)
        [DebounceFn.Event.call 0 4]) 10 300 (FnVal.func 2) 0 300 (by rfl),
   C10_debounce_fires_current_callable
      (DebounceFn.run (DebounceFn.init 0 (FnVal.func 1) 300)
        [DebounceFn.Event.call 0 4]) 10 300 FnVal.nonfunc 0 300 (by rfl)⟩

/-- C3: latest payload at fire time.  Across all four machines — debounce
and throttle, action and value mode — whenever a scheduled (trailing)
firing executes, the payload it delivers is the most recent payload
received before the firing (the last call arguments, respectively the
last input value, of the whole preceding trace; the initial payload if no
input arrived), no matter how many inputs arrived between the arming of
the timer and its firing, because every input overwrites the latest-
payload ref unconditionally and the firing callback reads that ref. -/
theorem C3_latest_payload_at_fire :
    (∀ (α : Type) (a0 : α) (fn : FnVal) (d : Int) (es : List (DebounceFn.Event α))
        (u : Int) (i j : Nat) (dd : Int),
      (DebounceFn.run (DebounceFn.init a0 fn d) es).timeout = some (i, dd) →
      (DebounceFn.run (DebounceFn.init a0 fn d) es).fnRef = FnVal.func j →
      (DebounceFn.step (DebounceFn.run (DebounceFn.init a0 fn d) es)
          (DebounceFn.Event.fire u)).log
        = (DebounceFn.run (DebounceFn.init a0 fn d) es).log
            ++ [(j, DebounceFn.lastArgs a0 es, u)])
    ∧ (∀ (α : Type) (a0 : α) (fn : FnVal) (d : Int) (es : List (ThrottleFn.Event α))
        (u : Int) (i j : Nat) (dd : Int),
      (ThrottleFn.run (ThrottleFn.init a0 fn d) es).timeout = some (i, dd) →
      (ThrottleFn.run (ThrottleFn.init a0 fn d) es).fnRef = FnVal.func j →
      (ThrottleFn.step (ThrottleFn.run (ThrottleFn.init a0 fn d) es)
          (ThrottleFn.Event.fire u)).log
        = (ThrottleFn.run (ThrottleFn.init a0 fn d) es).log
            ++ [(j, ThrottleFn.lastArgs a0 es, u)])
    ∧ (∀ (α : Type) (t0 : Int) (v0 : α) (d : Int)
        (es : List (DebounceValue.Event α)) (u dd : Int),
      (DebounceValue.run (DebounceValue.init t0 v0 d) es).valueTimeout = some dd →
      (DebounceValue.step (DebounceValue.run (DebounceValue.init t0 v0 d) es)
          (DebounceValue.Event.fire u)).debouncedValue
        = DebounceValue.lastValue v0 es)
    ∧ (∀ (α : Type) (t0 : Int) (v0 : α) (d : Int)
        (es : List (ThrottleValue.Event α)) (u dd : Int),
      (ThrottleValue.run (ThrottleValue.init t0 v0 d) es).valueTimeout = some dd →
      (ThrottleValue.step (ThrottleValue.run (ThrottleValue.init t0 v0 d) es)
          (ThrottleValue.Event.fire u)).throttledValue
        = ThrottleValue.lastValue v0 es) := by
  refine ⟨?_, ?_, ?_, ?_⟩
  · intro α a0 fn d es u i j dd hto hfn
    have hl := DebounceFn.debRun_latestArgs (DebounceFn.init a0 fn d) es
    have ha : (DebounceFn.init a0 fn d).latestArgs = a0 := rfl
    rw [ha] at hl
    unfold DebounceFn.step
    rw [hto, hfn, hl]
  · intro α a0 fn d es u i j dd hto hfn
    have hl := ThrottleFn.run_latestArgs (ThrottleFn.init a0 fn d) es
    have ha : (ThrottleFn.init a0 fn d).latestArgs = a0 := rfl
    rw [ha] at hl
    unfold ThrottleFn.step
    rw [hto, hfn, hl]
  · intro α t0 v0 d es u dd hto
    have hl := DebounceValue.run_latestValue (DebounceValue.init t0 v0 d) es
    have ha : (DebounceValue.init t0 v0 d).latestValue = v0 := rfl
    rw [ha] at hl
    unfold DebounceValue.step
    rw [hto, hl]
  · intro α t0 v0 d es u dd hto
    have hl := ThrottleValue.run_pendingValue (ThrottleValue.init t0 v0 d) es
    have ha : (ThrottleValue.init t0 v0 d).pendingValue = v0 := rfl
    rw [ha] at hl
    unfold ThrottleValue.step
    rw [hto, hl]

/-- Witness for C3 at concrete inputs, one per mode.  Debounce action:
calls of payloads 8 then 9 at t = 0, 50 under window 100 (timer pending,
callable 1 wrapped); the fire at t = 150 delivers the last payload 9.
Throttle action: leading call of payload 4 at t = 0 then suppressed
calls of payloads 5, 6 at t = 60, 120 under window 200; the trailing fire
at t = 200 delivers the last payload 6.  Debounce value: mount with 3 at
t = 0, updates to 4 then 5 at t = 10, 20 under window 100; the fire at
t = 120 publishes the last value 5.  Throttle value: mount with 3 at
t = 0, updates to 4 then 5 at t = 60, 120 under window 200; the trailing
fire at t = 200 publishes the last value 5. -/
theorem C3_witness :
    ((DebounceFn.step (DebounceFn.run (DebounceFn.init 0 (FnVal.func 1) 100)
          [DebounceFn.Event.call 0 8, DebounceFn.Event.call 50 (9 : Nat)])
        (DebounceFn.Event.fire 150)).log
      = (DebounceFn.run (DebounceFn.init 0 (FnVal.func 1) 100)
          [DebounceFn.Event.call 0 8, DebounceFn.Event.call 50 (9 : Nat)]).log
        ++ [(1, DebounceFn.lastArgs 0
              [DebounceFn.Event.call 0 8, DebounceFn.Event.call 50 (9 : Nat)], 150)])
    ∧ ((ThrottleFn.step (ThrottleFn.run (ThrottleFn.init 0 (FnVal.func 1) 200)
          [ThrottleFn.Event.call 0 4, ThrottleFn.Event.call 60 5,
           ThrottleFn.Event.call 120 (6 : Nat)])
        (ThrottleFn.Event.fire 200)).log
      = (ThrottleFn.run (ThrottleFn.init 0 (FnVal.func 1) 200)
          [ThrottleFn.Event.call 0 4, ThrottleFn.Event.call 60 5,
           ThrottleFn.Event.call 120 (6 : Nat)]).log
        ++ [(1, ThrottleFn.lastArgs 0
              [ThrottleFn.Event.call 0 4, ThrottleFn.Event.call 60 5,
               ThrottleFn.Event.call 120 (6 : Nat)], 200)])
    ∧ ((DebounceValue.step (DebounceValue.run (DebounceValue.init 0 (3 : Nat) 100)
          [DebounceValue.Event.upd 10 4, DebounceValue.Event.upd 20 5])
        (DebounceValue.Event.fire 120)).debouncedValue
      = DebounceValue.lastValue 3
          [DebounceValue.Event.upd 10 4, DebounceValue.Event.upd 20 (5 : Nat)])
    ∧ ((ThrottleValue.step (ThrottleValue.run (ThrottleValue.init 0 (3 : Nat) 200)
          [ThrottleValue.Event.upd 60 4, ThrottleValue.Event.upd 120 5])
        (ThrottleValue.Event.fire 200)).throttledValue
      = ThrottleValue.lastValue 3
          [ThrottleValue.Event.upd 60 4, ThrottleValue.Event.upd 120 (5 : Nat)]) :=
  ⟨C3_latest_payload_at_fire.1 Nat 0 (FnVal.func 1) 100
      [DebounceFn.Event.call 0 8, DebounceFn.Event.call 50 9]
      150 1 1 150 (by rfl) (by rfl),
   C3_latest_payload_at_fire.2.1 Nat 0 (FnVal.func 1) 200
      [ThrottleFn.Event.call 0 4, ThrottleFn.Event.call 60 5,
       ThrottleFn.Event.call 120 6] 200 1 1 200 (by rfl) (by rfl),
   C3_latest_payload_at_fire.2.2.1 Nat 0 3 100
      [DebounceValue.Event.upd 10 4, DebounceValue.Event.upd 20 5]
      120 120 (by rfl),
   C3_latest_payload_at_fire.2.2.2 Nat 0 3 200
      [ThrottleValue.Event.upd 60 4, ThrottleValue.Event.upd 120 5]
      200 200 (by rfl)⟩

/-- C2: debounce settles to the last value only.  For a mount with value
`v0` at time `t0` followed by updates `front ++ [(tN, vN)]` whose
consecutive arrival times increase and lie strictly less than one window
apart (so every update cancels and re-arms the timer before it can fire),
the output still equals the initial value `v0` after every prefix of the
updates; after all updates the timer is due exactly one full window after
the last update (`tN + d`); running that callback at any `u ≥ tN + d`
makes the output the final value `vN`; and (the values of the sequence
being pairwise distinguishable from `v0` and `vN`) the output never
equals any intermediate value, and does not equal the final value before
the callback runs. -/
theorem C2_debounce_settles_to_last_value {α : Type} (t0 d : Int) (v0 vN : α)
    (front : List (Int × α)) (tN u : Int)
    (hgaps : DebounceValue.gapsLt d t0 (front ++ [(tN, vN)]) = true)
    (hu : tN + d ≤ u)
    (hvN : vN ≠ v0)
    (hmid : ∀ x ∈ front, x.2 ≠ v0 ∧ x.2 ≠ vN) :
    (∀ n, (DebounceValue.runUpds (DebounceValue.init t0 v0 d)
        ((front ++ [(tN, vN)]).take n)).debouncedValue = v0)
    ∧ (DebounceValue.runUpds (DebounceValue.init t0 v0 d)
        (front ++ [(tN, vN)])).valueTimeout = some (tN + d)
    ∧ (DebounceValue.step (DebounceValue.runUpds (DebounceValue.init t0 v0 d)
        (front ++ [(tN, vN)])) (DebounceValue.Event.fire u)).debouncedValue = vN
    ∧ (∀ n, ∀ x ∈ front,
        (DebounceValue.runUpds (DebounceValue.init t0 v0 d)
          ((front ++ [(tN, vN)]).take n)).debouncedValue ≠ x.2)
    ∧ (DebounceValue.step (DebounceValue.runUpds (DebounceValue.init t0 v0 d)
        (front ++ [(tN, vN)])) (DebounceValue.Event.fire u)).debouncedValue ≠ v0
    ∧ (∀ x ∈ front,
        (DebounceValue.step (DebounceValue.runUpds (DebounceValue.init t0 v0 d)
          (front ++ [(tN, vN)])) (DebounceValue.Event.fire u)).debouncedValue
        ≠ x.2) := by
  have h1 : ∀ us : List (Int × α),
      (DebounceValue.runUpds (DebounceValue.init t0 v0 d) us).debouncedValue
        = v0 := by
    intro us
    rw [DebounceValue.runUpds_debouncedValue]
    rfl
  have hdel : (DebounceValue.runUpds (DebounceValue.init t0 v0 d) front).delay
      = d := by
    rw [DebounceValue.runUpds_delay]
    rfl
  have happ := DebounceValue.runUpds_append (DebounceValue.init t0 v0 d)
    front [(tN, vN)]
  have htim : (DebounceValue.runUpds (DebounceValue.init t0 v0 d)
      (front ++ [(tN, vN)])).valueTimeout = some (tN + d) := by
    rw [happ]
    show some (tN + (DebounceValue.runUpds (DebounceValue.init t0 v0 d)
      front).delay) = some (tN + d)
    rw [hdel]
  have hlat : (DebounceValue.runUpds (DebounceValue.init t0 v0 d)
      (front ++ [(tN, vN)])).latestValue = vN := by
    rw [happ]
    rfl
  have hfire : (DebounceValue.step (DebounceValue.runUpds (DebounceValue.init t0 v0 d)
      (front ++ [(tN, vN)])) (DebounceValue.Event.fire u)).debouncedValue = vN := by
    unfold DebounceValue.step
    rw [htim]
    exact hlat
  refine ⟨fun n => h1 _, htim, hfire, ?_, ?_, ?_⟩
  · intro n x hx
    rw [h1]
    exact fun he => (hmid x hx).1 he.symm
  · rw [hfire]
    exact hvN
  · intro x hx
    rw [hfire]
    exact fun he => (hmid x hx).2 he.symm

/-- Witness for C2 at a concrete input: mount with value 5 at t = 0 and
window 100, updates to 6, 7, 8 at t = 10, 50, 90 (each strictly within
one window of the previous arrival); after the first two updates the
output is still 5 and differs from the intermediate 6; after all updates
the timer is due at 190, and firing it at t = 190 yields output 8, which
differs from 5 and from the intermediate 7. -/
theorem C2_witness :
    (DebounceValue.runUpds (DebounceValue.init 0 (5 : Nat) 100)
        ((([(10, 6), (50, 7)] : List (Int × Nat)) ++ [(90, 8)]).take 2)).debouncedValue = 5
    ∧ (DebounceValue.runUpds (DebounceValue.init 0 (5 : Nat) 100)
        (([(10, 6), (50, 7)] : List (Int × Nat)) ++ [(90, 8)])).valueTimeout = some (90 + 100)
    ∧ (DebounceValue.step (DebounceValue.runUpds (DebounceValue.init 0 (5 : Nat) 100)
        (([(10, 6), (50, 7)] : List (Int × Nat)) ++ [(90, 8)]))
        (DebounceValue.Event.fire 190)).debouncedValue = 8
    ∧ (DebounceValue.runUpds (DebounceValue.init 0 (5 : Nat) 100)
        ((([(10, 6), (50, 7)] : List (Int × Nat)) ++ [(90, 8)]).take 2)).debouncedValue ≠ 6
    ∧ (DebounceValue.step (DebounceValue.runUpds (DebounceValue.init 0 (5 : Nat) 100)
        (([(10, 6), (50, 7)] : List (Int × Nat)) ++ [(90, 8)]))
        (DebounceValue.Event.fire 190)).debouncedValue ≠ 5
    ∧ (DebounceValue.step (DebounceValue.runUpds (DebounceValue.init 0 (5 : Nat) 100)
        (([(10, 6), (50, 7)] : List (Int × Nat)) ++ [(90, 8)]))
        (DebounceValue.Event.fire 190)).debouncedValue ≠ 7 := by
  have H := C2_debounce_settles_to_last_value 0 100 (5 : Nat) 8
    ([(10, 6), (50, 7)] : List (Int × Nat)) 90 190
    (by decide) (by decide) (by decide) (by decide)
  exact ⟨H.1 2, H.2.1, H.2.2.1, H.2.2.2.1 2 (10, 6) (by decide),
    H.2.2.2.2.1, H.2.2.2.2.2 (50, 7) (by decide)⟩
